import Mathlib

/-!
Verification development for the fire_simulator repository.

Shallow embedding of the core: cell grid state (fire_grid.py), the
propagation engine `update_fire` with its helper functions
`fire_travel_time`, `ignition_duration`, `burn_duration`,
`ignition_probability` (fire_model.py), and the time-stepping driver
(fire_simulation.py).

Conventions of the embedding:
* Python floats are modelled as real numbers.
* numpy's `inf` travel times are modelled by `Option ℝ` (`none` = infinite);
  `dt / inf = 0` in IEEE arithmetic for finite `dt`, which the helper
  `rateOf` reproduces (`rateOf dt none = 0`).
* The per-cell arrays are total functions `Int → Int → α`; all reads and
  writes performed by the code are guarded by the explicit bounds masks
  that the numpy code realises through array extents and the edge masking
  after `np.roll`.
* The stochastic draws of `np.random.rand` are passed in as an oracle
  giving, for each neighbor offset and each cell, the uniform sample that
  the trial at that cell would consume; `np.random.rand` produces values
  in [0, 1), so theorems about the stochastic trial assume the draws are
  nonnegative where needed.
-/

open scoped Classical

/-- Cell states, mirroring `FireGrid.UNBURNED / BURNING / BURNED`. -/
inductive CellState where
  | UNBURNED
  | BURNING
  | BURNED
deriving DecidableEq

/-- The grid entity of fire_grid.py: geometry plus the per-cell arrays.
`landcover` is `none` until a raster has been ingested. -/
structure FireGrid where
  rows : Int
  cols : Int
  cell_size : ℝ
  grid_state : Int → Int → CellState
  burn_progress : Int → Int → ℝ
  ignition_progress : Int → Int → ℝ
  flammability : Int → Int → ℝ
  landcover : Option (Int → Int → Int)

/-- Bounds test `0 <= i < rows and 0 <= j < cols` used throughout
fire_grid.py and implicit in every numpy array access. -/
def FireGrid.inB (g : FireGrid) (i j : Int) : Prop :=
  0 ≤ i ∧ i < g.rows ∧ 0 ≤ j ∧ j < g.cols

instance (g : FireGrid) (i j : Int) : Decidable (g.inB i j) := by
  unfold FireGrid.inB; infer_instance

/-- `FireGrid.__init__`: no explicit parameter validation exists in the
source; the only failure is numpy's refusal to allocate an array with a
negative dimension (`np.zeros((rows, cols))` raises ValueError for
`rows < 0` or `cols < 0`).  `cell_size` is stored unchecked, all states
start Unburned, all progress arrays start at 0, flammability defaults to
1.0, and no landcover is loaded. -/
def mkFireGrid (rows cols : Int) (cell_size : ℝ) : Except String FireGrid :=
  if rows < 0 ∨ cols < 0 then .error "negative dimensions are not allowed"
  else .ok
    { rows := rows
      cols := cols
      cell_size := cell_size
      grid_state := fun _ _ => CellState.UNBURNED
      burn_progress := fun _ _ => 0
      ignition_progress := fun _ _ => 0
      flammability := fun _ _ => 1
      landcover := none }

/-- Holds exactly when a construction attempt returned a grid. -/
def constructionSucceeds (e : Except String FireGrid) : Prop :=
  match e with
  | .ok _ => True
  | .error _ => False

/-- `atan2(y, x)` as used by `np.arctan2`, realised through the complex
argument function (same convention: range (-pi, pi], `atan2 0 0 = 0`). -/
noncomputable def atan2 (y x : ℝ) : ℝ :=
  Complex.arg ⟨x, y⟩

/-- `fire_travel_time` of fire_model.py.  `none` models the `np.inf`
produced for non-positive flammability; the guarded reciprocal
(`errstate` + `np.where`) never faults. -/
noncomputable def fire_travel_time (cell_size flammability wind_speed wind_dir_rad dx dy : ℝ) :
    Option ℝ :=
  let distance := if dx ≠ 0 ∨ dy ≠ 0 then Real.sqrt (dx ^ 2 + dy ^ 2) * cell_size else cell_size
  let cell_direction := if dx ≠ 0 ∨ dy ≠ 0 then atan2 dy dx else 0
  let delta := cell_direction - wind_dir_rad
  let align := ((1 + Real.cos delta) / 2) ^ (1.5 : ℝ)
  let wind_factor := 1 / (1 + wind_speed * align)
  if flammability ≤ 0 then none
  else some ((distance / 0.2) * (1 / flammability) * wind_factor)

/-- `ignition_duration` of fire_model.py: a direct alias of
`fire_travel_time`. -/
noncomputable def ignition_duration (cell_size flammability wind_speed wind_dir_rad dx dy : ℝ) :
    Option ℝ :=
  fire_travel_time cell_size flammability wind_speed wind_dir_rad dx dy

/-- `burn_duration` of fire_model.py.  The wind-dependent
`burn_slowdown` computed on the previous line is immediately overwritten
by the constant 5, so the effective slowdown factor is the fixed 5. -/
noncomputable def burn_duration (cell_size flammability wind_speed : ℝ) : Option ℝ :=
  (fire_travel_time cell_size flammability wind_speed 0 0 0).map (fun t => 5 * t)

/-- `ignition_probability` of fire_model.py: `min(1, base_prob * f)`
with default `base_prob = 1.0`. -/
def ignition_probability (flammability : ℝ) (base_prob : ℝ := 1) : ℝ :=
  min 1 (base_prob * flammability)

/-- Progress rate `dt / T`.  For an infinite duration (`none`) the numpy
code computes `dt / inf = 0.0`, which this helper reproduces. -/
noncomputable def rateOf (dt : ℝ) : Option ℝ → ℝ
  | none => 0
  | some t => dt / t


/-- One entry of the `_NEIGHBORS` table: the roll shift `(si, sj)` in
(row, col) coordinates and the associated spread direction `(dx, dy)`. -/
structure Neighbor where
  si : Int
  sj : Int
  dx : ℝ
  dy : ℝ

/-- The `_NEIGHBORS` table of fire_model.py, in its fixed order.
`dx = sj` and `dy = -si` (the y axis points against growing row index). -/
def NEIGHBORS : List Neighbor :=
  [⟨-1, -1, -1, 1⟩, ⟨-1, 0, 0, 1⟩, ⟨-1, 1, 1, 1⟩,
   ⟨0, -1, -1, 0⟩, ⟨0, 1, 1, 0⟩,
   ⟨1, -1, -1, -1⟩, ⟨1, 0, 0, -1⟩, ⟨1, 1, 1, -1⟩]

/-- Pass A of `update_fire` (burn-out, lines 29-44).  For every in-bounds
Burning cell the progress becomes `bp + dt / burn_duration`; cells whose
advanced progress reaches 1.0 transition to Burned.  Note duly that the
clamp `bp[done] = 1.0` written on line 40 is immediately overwritten by
`bp[burning] = bp_flat` on line 42 (the full unclamped vector is written
back over every originally-burning position), so the stored progress of a
finished cell is the unclamped advanced value. -/
noncomputable def passA (g : FireGrid) (dt wind_speed : ℝ) : FireGrid :=
  { g with
    grid_state := fun i j =>
      if g.inB i j ∧ g.grid_state i j = CellState.BURNING then
        if 1 ≤ g.burn_progress i j +
            rateOf dt (burn_duration g.cell_size (g.flammability i j) wind_speed) then
          CellState.BURNED
        else CellState.BURNING
      else g.grid_state i j
    burn_progress := fun i j =>
      if g.inB i j ∧ g.grid_state i j = CellState.BURNING then
        g.burn_progress i j +
          rateOf dt (burn_duration g.cell_size (g.flammability i j) wind_speed)
      else g.burn_progress i j }

/-- The `burning` mask as it stands at the start of Pass B: originally
burning cells that did not finish in Pass A (line 44 removes the newly
Burned ones), i.e. exactly the cells Burning after Pass A. -/
def burningMask (gA : FireGrid) : Int → Int → Prop :=
  fun i j => gA.grid_state i j = CellState.BURNING

/-- The `unburned` snapshot of line 48, taken once after Pass A and never
refreshed during the 8 neighbor sub-passes. -/
def unburnedMask (gA : FireGrid) : Int → Int → Prop :=
  fun i j => gA.grid_state i j = CellState.UNBURNED

/-- Mutable state threaded through the 8 neighbor sub-passes of Pass B. -/
structure BState where
  gs : Int → Int → CellState
  bp : Int → Int → ℝ
  ip : Int → Int → ℝ

/-- The candidate mask of one neighbor sub-pass (lines 50-62): cell
`(i,j)` is in bounds, Unburned per the snapshot, and the cell at relative
position `(-si,-sj)` is in bounds (the wrap-around entries produced by
`np.roll` are masked off on lines 56-59) and burning. -/
def candidateB (gA : FireGrid) (burning unburned : Int → Int → Prop)
    (nb : Neighbor) (i j : Int) : Prop :=
  gA.inB i j ∧ unburned i j ∧ gA.inB (i - nb.si) (j - nb.sj) ∧ burning (i - nb.si) (j - nb.sj)

/-- Per-candidate ignition-progress rate of one sub-pass (lines 70-73):
`dt / ignition_duration`, using the candidate's own flammability. -/
noncomputable def rateB (gA : FireGrid) (dt wind_speed wind_dir_rad : ℝ)
    (nb : Neighbor) (i j : Int) : ℝ :=
  rateOf dt (ignition_duration gA.cell_size (gA.flammability i j) wind_speed wind_dir_rad nb.dx nb.dy)

/-- One neighbor sub-pass of Pass B (lines 50-97): advance the ignition
progress of every candidate, then ignite (state Burning, both progress
fields reset to 0) those whose advanced progress reached 1.0 and whose
uniform draw fell below `ignition_probability`; candidates that crossed
the threshold but failed the draw keep their advanced progress. -/
noncomputable def passBstep (gA : FireGrid) (dt wind_speed wind_dir_rad : ℝ)
    (burning unburned : Int → Int → Prop) (rndk : Int → Int → ℝ)
    (nb : Neighbor) (s : BState) : BState :=
  let cand := fun i j => candidateB gA burning unburned nb i j
  let ipAdv := fun i j =>
    if cand i j then s.ip i j + rateB gA dt wind_speed wind_dir_rad nb i j else s.ip i j
  let ign := fun i j =>
    cand i j ∧ 1 ≤ ipAdv i j ∧ rndk i j < ignition_probability (gA.flammability i j)
  { gs := fun i j => if ign i j then CellState.BURNING else s.gs i j
    bp := fun i j => if ign i j then 0 else s.bp i j
    ip := fun i j => if ign i j then 0 else ipAdv i j }

/-- Pass B of `update_fire`: the 8 neighbor sub-passes in the fixed
`_NEIGHBORS` order, threading the grid arrays through `passBstep`,
against the fixed `burning` and `unburned` snapshots. -/
noncomputable def passB (gA : FireGrid) (dt wind_speed wind_dir_rad : ℝ)
    (rnd : Neighbor → Int → Int → ℝ) : BState :=
  NEIGHBORS.foldl
    (fun s nb => passBstep gA dt wind_speed wind_dir_rad
      (burningMask gA) (unburnedMask gA) (rnd nb) nb s)
    ⟨gA.grid_state, gA.burn_progress, gA.ignition_progress⟩

/-- `update_fire` of fire_model.py: Pass A (burn-out) followed by the 8
neighbor sub-passes of Pass B in the fixed `_NEIGHBORS` order.  `rnd`
supplies, per neighbor offset and cell, the uniform sample that the
stochastic trial at that cell would consume. -/
noncomputable def update_fire (g : FireGrid) (dt wind_speed wind_dir_rad : ℝ)
    (rnd : Neighbor → Int → Int → ℝ) : FireGrid :=
  let gA := passA g dt wind_speed
  let sF := passB gA dt wind_speed wind_dir_rad rnd
  { gA with grid_state := sF.gs, burn_progress := sF.bp, ignition_progress := sF.ip }

/-- `FireGrid.ignite`: unconditional ignition of an in-bounds cell,
silent no-op out of bounds. -/
def FireGrid.ignite (g : FireGrid) (i j : Int) : FireGrid :=
  if g.inB i j then
    { g with
      grid_state := fun a b => if a = i ∧ b = j then CellState.BURNING else g.grid_state a b
      burn_progress := fun a b => if a = i ∧ b = j then 0 else g.burn_progress a b
      ignition_progress := fun a b => if a = i ∧ b = j then 0 else g.ignition_progress a b }
  else g

/-- The code→flammability table applied to one landcover code: the dict
entries are applied in order onto a zero-initialised array, so unmapped
codes stay 0 and later entries for the same code win. -/
def mapFlamValue (class_to_value : List (Int × ℝ)) (code : Int) : ℝ :=
  class_to_value.foldl (fun acc cv => if code = cv.1 then cv.2 else acc) 0

/-- `FireGrid.map_flammability`: raises "Load landcover first." when no
landcover raster has been ingested, otherwise rebuilds the flammability
array from the code→value table. -/
def FireGrid.map_flammability (g : FireGrid) (class_to_value : List (Int × ℝ)) :
    Except String FireGrid :=
  match g.landcover with
  | none => .error "Load landcover first."
  | some lc =>
    .ok { g with flammability := fun i j => mapFlamValue class_to_value (lc i j) }

/-- The simulation driver entity of fire_simulation.py. -/
structure FireSimulation where
  grid : FireGrid
  dt : ℝ
  wind_speed_mu : ℝ
  wind_speed_sigma : ℝ
  wind_dir_mu_rad : ℝ
  wind_dir_sigma_rad : ℝ
  step_count : Nat
  wind_speed : ℝ
  wind_direction : ℝ

/-- `FireSimulation.__init__`: stores everything unchecked (`dt` in
particular is not validated), with `step_count = 0` and zero wind. -/
def mkFireSimulation (grid : FireGrid) (dt wind_speed_mu wind_speed_sigma
    wind_dir_mu_rad wind_dir_sigma_rad : ℝ) : FireSimulation :=
  { grid := grid
    dt := dt
    wind_speed_mu := wind_speed_mu
    wind_speed_sigma := wind_speed_sigma
    wind_dir_mu_rad := wind_dir_mu_rad
    wind_dir_sigma_rad := wind_dir_sigma_rad
    step_count := 0
    wind_speed := 0
    wind_direction := 0 }

/-- The stochastic inputs consumed by one `step()` call: the raw normal
samples for wind speed and direction, and the uniform draws of the
ignition trials. -/
structure StepDraws where
  speed : ℝ
  dir : ℝ
  rnd : Neighbor → Int → Int → ℝ

/-- `FireSimulation.step`: clamp the sampled speed at 0, run
`update_fire`, bump the step counter. -/
noncomputable def FireSimulation.step (s : FireSimulation) (d : StepDraws) : FireSimulation :=
  let ws := max 0 d.speed
  { s with
    wind_speed := ws
    wind_direction := d.dir
    grid := update_fire s.grid s.dt ws d.dir d.rnd
    step_count := s.step_count + 1 }

/-- A finite sequence of `step()` calls with the given stochastic inputs
(the body of `FireSimulation.run`, without the callback, which only
observes the grid). -/
noncomputable def FireSimulation.runSteps (s : FireSimulation) (ds : List StepDraws) :
    FireSimulation :=
  ds.foldl FireSimulation.step s

/-- Rank of a state along the forward chain Unburned → Burning → Burned. -/
def stateRank : CellState → Nat
  | CellState.UNBURNED => 0
  | CellState.BURNING => 1
  | CellState.BURNED => 2

/-- The travel-time formula exactly as the specification words it: if
flammability ≤ 0 the time is infinite; otherwise
`(distance / K) × (1 / flammability) × wind_factor` with `K = 0.2`,
`distance = cell_size × hypot(dx,dy)` (or `cell_size` with reference
direction 0 when `(dx,dy) = (0,0)`), `align = ((1 + cos(delta))/2)^1.5`
for `delta = reference_direction − wind_direction`, and
`wind_factor = 1 / (1 + wind_speed × align)`. -/
noncomputable def travel_time_spec (cell_size flammability wind_speed wind_dir_rad dx dy : ℝ) :
    Option ℝ :=
  if flammability ≤ 0 then none
  else
    let distance := if dx = 0 ∧ dy = 0 then cell_size else cell_size * Real.sqrt (dx ^ 2 + dy ^ 2)
    let reference_direction := if dx = 0 ∧ dy = 0 then 0 else atan2 dy dx
    let align := ((1 + Real.cos (reference_direction - wind_dir_rad)) / 2) ^ (1.5 : ℝ)
    let wind_factor := 1 / (1 + wind_speed * align)
    some ((distance / 0.2) * (1 / flammability) * wind_factor)

/-- The grid a bare `FireGrid(1, 1, 1.0)` constructor call produces. -/
def gUnit : FireGrid :=
  { rows := 1
    cols := 1
    cell_size := 1
    grid_state := fun _ _ => CellState.UNBURNED
    burn_progress := fun _ _ => 0
    ignition_progress := fun _ _ => 0
    flammability := fun _ _ => 1
    landcover := none }

/-- A 1×1 grid whose cell is Burning with burn progress 0.9, flammability
1, cell size 1. -/
def gC3 : FireGrid :=
  { gUnit with
    grid_state := fun _ _ => CellState.BURNING
    burn_progress := fun _ _ => 0.9 }

/-- A 1×3 grid with Burning cells at both ends, the middle cell Unburned,
flammability 1 everywhere, cell size 1. -/
def gC9 : FireGrid :=
  { rows := 1
    cols := 3
    cell_size := 1
    grid_state := fun i j =>
      if i = 0 ∧ (j = 0 ∨ j = 2) then CellState.BURNING else CellState.UNBURNED
    burn_progress := fun _ _ => 0
    ignition_progress := fun _ _ => 0
    flammability := fun _ _ => 1
    landcover := none }

/-- The grid state of `gC9` after Pass A of an `update_fire` call with
`dt = 10`, zero wind. -/
noncomputable def gC9A : FireGrid := passA gC9 10 0

/-- Uniform-draw oracle that returns 0 everywhere (every trial succeeds
when the success probability is positive). -/
def rnd0 : Neighbor → Int → Int → ℝ := fun _ _ _ => 0

/-- Uniform-draw oracle whose draws fail the trial exactly at the East
neighbor offset `(si, sj) = (0, +1)` and succeed everywhere else. -/
noncomputable def rndA : Neighbor → Int → Int → ℝ :=
  fun nb _ _ => if nb.si = 0 ∧ nb.sj = 1 then 1 else 0

/-- The East neighbor offset `{shift: (0, +1), dx: +1, dy: 0}`, the fifth
entry of `_NEIGHBORS`. -/
def nbE : Neighbor := ⟨0, 1, 1, 0⟩

/-- The Pass-B state of the `update_fire gC9 10 0 0 rndA` call after the
first four neighbor sub-passes (i.e. just before the `nbE` sub-pass). -/
noncomputable def sC9mid : BState :=
  (NEIGHBORS.take 4).foldl
    (fun s nb => passBstep gC9A 10 0 0
      (burningMask gC9A) (unburnedMask gC9A) (rndA nb) nb s)
    ⟨gC9A.grid_state, gC9A.burn_progress, gC9A.ignition_progress⟩

/-- A 1×1 grid whose cell is non-flammable (flammability 0) and Unburned. -/
def gC4w : FireGrid :=
  { gUnit with flammability := fun _ _ => 0 }

/-- A 1×1 grid whose cell is already Burned, with nonzero progress
values. -/
def gC5w : FireGrid :=
  { gUnit with
    grid_state := fun _ _ => CellState.BURNED
    burn_progress := fun _ _ => 1
    ignition_progress := fun _ _ => 0.25 }

/-- A left fold preserves any invariant its step preserves. -/
theorem foldl_invariant {α β : Type} (f : β → α → β) (l : List α) (P : β → Prop)
    (hstep : ∀ b a, a ∈ l → P b → P (f b a)) (b : β) (hb : P b) : P (l.foldl f b) := by
  induction l generalizing b with
  | nil => exact hb
  | cons x xs ih =>
    exact ih (fun b' a ha hb' => hstep b' a (List.mem_cons_of_mem x ha) hb') _
      (hstep b x (List.mem_cons_self x xs) hb)

theorem update_fire_flammability (g : FireGrid) (dt ws wd : ℝ) (rnd : Neighbor → Int → Int → ℝ) :
    (update_fire g dt ws wd rnd).flammability = g.flammability := rfl

theorem update_fire_geometry (g : FireGrid) (dt ws wd : ℝ) (rnd : Neighbor → Int → Int → ℝ) :
    (update_fire g dt ws wd rnd).rows = g.rows ∧
    (update_fire g dt ws wd rnd).cols = g.cols ∧
    (update_fire g dt ws wd rnd).cell_size = g.cell_size := ⟨rfl, rfl, rfl⟩

theorem update_fire_gs (g : FireGrid) (dt ws wd : ℝ) (rnd : Neighbor → Int → Int → ℝ) :
    (update_fire g dt ws wd rnd).grid_state = (passB (passA g dt ws) dt ws wd rnd).gs := rfl

theorem update_fire_bp (g : FireGrid) (dt ws wd : ℝ) (rnd : Neighbor → Int → Int → ℝ) :
    (update_fire g dt ws wd rnd).burn_progress = (passB (passA g dt ws) dt ws wd rnd).bp := rfl

theorem update_fire_ip (g : FireGrid) (dt ws wd : ℝ) (rnd : Neighbor → Int → Int → ℝ) :
    (update_fire g dt ws wd rnd).ignition_progress = (passB (passA g dt ws) dt ws wd rnd).ip := rfl

theorem passA_ip (g : FireGrid) (dt ws : ℝ) :
    (passA g dt ws).ignition_progress = g.ignition_progress := rfl

theorem passA_flammability (g : FireGrid) (dt ws : ℝ) :
    (passA g dt ws).flammability = g.flammability := rfl

theorem passA_point_not_burning (g : FireGrid) (dt ws : ℝ) (i j : Int)
    (h : g.grid_state i j ≠ CellState.BURNING) :
    (passA g dt ws).grid_state i j = g.grid_state i j ∧
    (passA g dt ws).burn_progress i j = g.burn_progress i j := by
  constructor <;> simp [passA, h]

/-- A sub-pass leaves a non-candidate cell untouched. -/
theorem passBstep_point_skip (gA : FireGrid) (dt ws wd : ℝ) (b u : Int → Int → Prop)
    (r : Int → Int → ℝ) (nb : Neighbor) (s : BState) (i j : Int)
    (hc : ¬ candidateB gA b u nb i j) :
    (passBstep gA dt ws wd b u r nb s).gs i j = s.gs i j ∧
    (passBstep gA dt ws wd b u r nb s).bp i j = s.bp i j ∧
    (passBstep gA dt ws wd b u r nb s).ip i j = s.ip i j := by
  refine ⟨?_, ?_, ?_⟩ <;> simp [passBstep, hc]

/-- A sub-pass ignites a candidate whose advanced progress reaches 1.0
and whose draw beats the ignition probability. -/
theorem passBstep_point_fire (gA : FireGrid) (dt ws wd : ℝ) (b u : Int → Int → Prop)
    (r : Int → Int → ℝ) (nb : Neighbor) (s : BState) (i j : Int)
    (hc : candidateB gA b u nb i j)
    (h1 : 1 ≤ s.ip i j + rateB gA dt ws wd nb i j)
    (h2 : r i j < ignition_probability (gA.flammability i j)) :
    (passBstep gA dt ws wd b u r nb s).gs i j = CellState.BURNING ∧
    (passBstep gA dt ws wd b u r nb s).bp i j = 0 ∧
    (passBstep gA dt ws wd b u r nb s).ip i j = 0 := by
  refine ⟨?_, ?_, ?_⟩ <;> simp [passBstep, hc, h1, h2]

/-- A sub-pass advances a candidate's ignition progress but changes
nothing else when the draw fails the trial. -/
theorem passBstep_point_fail (gA : FireGrid) (dt ws wd : ℝ) (b u : Int → Int → Prop)
    (r : Int → Int → ℝ) (nb : Neighbor) (s : BState) (i j : Int)
    (hc : candidateB gA b u nb i j)
    (h2 : ¬ r i j < ignition_probability (gA.flammability i j)) :
    (passBstep gA dt ws wd b u r nb s).gs i j = s.gs i j ∧
    (passBstep gA dt ws wd b u r nb s).bp i j = s.bp i j ∧
    (passBstep gA dt ws wd b u r nb s).ip i j = s.ip i j + rateB gA dt ws wd nb i j := by
  refine ⟨?_, ?_, ?_⟩ <;> simp [passBstep, hc, h2]

theorem fire_travel_time_nonpos (cs f ws wd dx dy : ℝ) (h : f ≤ 0) :
    fire_travel_time cs f ws wd dx dy = none := by
  simp [fire_travel_time, h]

theorem rateB_flam_zero (gA : FireGrid) (dt ws wd : ℝ) (nb : Neighbor) (i j : Int)
    (hf : gA.flammability i j ≤ 0) :
    rateB gA dt ws wd nb i j = 0 := by
  unfold rateB ignition_duration
  rw [fire_travel_time_nonpos _ _ _ _ _ _ hf]
  rfl

/-- A sub-pass cannot touch a zero-flammability cell: its progress rate
is 0 and its ignition probability is 0, which a draw from [0, 1) never
beats. -/
theorem passBstep_point_flam_zero (gA : FireGrid) (dt ws wd : ℝ) (b u : Int → Int → Prop)
    (r : Int → Int → ℝ) (nb : Neighbor) (s : BState) (i j : Int)
    (hf : gA.flammability i j = 0) (hr : 0 ≤ r i j) :
    (passBstep gA dt ws wd b u r nb s).gs i j = s.gs i j ∧
    (passBstep gA dt ws wd b u r nb s).bp i j = s.bp i j ∧
    (passBstep gA dt ws wd b u r nb s).ip i j = s.ip i j := by
  have hprob : ignition_probability (gA.flammability i j) = 0 := by
    simp [ignition_probability, hf]
  have hnd : ¬ r i j < ignition_probability (gA.flammability i j) := by
    rw [hprob]; exact not_lt.mpr hr
  have hrate : rateB gA dt ws wd nb i j = 0 := rateB_flam_zero gA dt ws wd nb i j (le_of_eq hf)
  by_cases hc : candidateB gA b u nb i j
  · obtain ⟨e1, e2, e3⟩ := passBstep_point_fail gA dt ws wd b u r nb s i j hc hnd
    exact ⟨e1, e2, by rw [e3, hrate, add_zero]⟩
  · exact passBstep_point_skip gA dt ws wd b u r nb s i j hc

/-- Pass B leaves a cell untouched when no sub-pass has it as a
candidate. -/
theorem passB_point_of_no_candidate (gA : FireGrid) (dt ws wd : ℝ)
    (rnd : Neighbor → Int → Int → ℝ) (i j : Int)
    (h : ∀ nb ∈ NEIGHBORS, ¬ candidateB gA (burningMask gA) (unburnedMask gA) nb i j) :
    (passB gA dt ws wd rnd).gs i j = gA.grid_state i j ∧
    (passB gA dt ws wd rnd).bp i j = gA.burn_progress i j ∧
    (passB gA dt ws wd rnd).ip i j = gA.ignition_progress i j := by
  unfold passB
  refine foldl_invariant _ NEIGHBORS
    (fun s : BState => s.gs i j = gA.grid_state i j ∧ s.bp i j = gA.burn_progress i j ∧
      s.ip i j = gA.ignition_progress i j)
    (fun s nb hnb hs => ?_) _ ⟨rfl, rfl, rfl⟩
  obtain ⟨e1, e2, e3⟩ := passBstep_point_skip gA dt ws wd
    (burningMask gA) (unburnedMask gA) (rnd nb) nb s i j (h nb hnb)
  exact ⟨e1.trans hs.1, e2.trans hs.2.1, e3.trans hs.2.2⟩

/-- Pass B leaves every cell outside the once-taken Unburned snapshot
untouched. -/
theorem passB_point_not_unburned (gA : FireGrid) (dt ws wd : ℝ)
    (rnd : Neighbor → Int → Int → ℝ) (i j : Int)
    (h : gA.grid_state i j ≠ CellState.UNBURNED) :
    (passB gA dt ws wd rnd).gs i j = gA.grid_state i j ∧
    (passB gA dt ws wd rnd).bp i j = gA.burn_progress i j ∧
    (passB gA dt ws wd rnd).ip i j = gA.ignition_progress i j :=
  passB_point_of_no_candidate gA dt ws wd rnd i j (fun _ _ hc => h hc.2.1)

/-- Pass B leaves a zero-flammability cell untouched when every draw the
oracle produces for it is nonnegative. -/
theorem passB_point_flam_zero (gA : FireGrid) (dt ws wd : ℝ)
    (rnd : Neighbor → Int → Int → ℝ) (i j : Int)
    (hf : gA.flammability i j = 0) (hr : ∀ nb, 0 ≤ rnd nb i j) :
    (passB gA dt ws wd rnd).gs i j = gA.grid_state i j ∧
    (passB gA dt ws wd rnd).bp i j = gA.burn_progress i j ∧
    (passB gA dt ws wd rnd).ip i j = gA.ignition_progress i j := by
  unfold passB
  refine foldl_invariant _ NEIGHBORS
    (fun s : BState => s.gs i j = gA.grid_state i j ∧ s.bp i j = gA.burn_progress i j ∧
      s.ip i j = gA.ignition_progress i j)
    (fun s nb _ hs => ?_) _ ⟨rfl, rfl, rfl⟩
  obtain ⟨e1, e2, e3⟩ := passBstep_point_flam_zero gA dt ws wd
    (burningMask gA) (unburnedMask gA) (rnd nb) nb s i j hf (hr nb)
  exact ⟨e1.trans hs.1, e2.trans hs.2.1, e3.trans hs.2.2⟩

theorem ftt_self_unit : fire_travel_time 1 1 0 0 0 0 = some 5 := by
  unfold fire_travel_time
  norm_num

theorem burn_duration_unit : burn_duration 1 1 0 = some 25 := by
  unfold burn_duration fire_travel_time
  norm_num

theorem ftt_unit_E : fire_travel_time 1 1 0 0 1 0 = some 5 := by
  unfold fire_travel_time
  norm_num [Real.sqrt_one]

theorem ftt_unit_W : fire_travel_time 1 1 0 0 (-1) 0 = some 5 := by
  unfold fire_travel_time
  norm_num [Real.sqrt_one]

/-- C1 counterexample: invalid construction parameters are silently
accepted.  A grid with `cell_size = -1` constructs, a grid with
`rows = 0` constructs, and a simulation with `dt = -1` constructs and
stores `dt` unchanged — none is reported as an error. -/
theorem construction_unvalidated :
    constructionSucceeds (mkFireGrid 1 1 (-1)) ∧
    constructionSucceeds (mkFireGrid 0 3 1) ∧
    (mkFireSimulation gUnit (-1) 0 0 0 0).dt = -1 := by
  refine ⟨?_, ?_, rfl⟩ <;> norm_num [mkFireGrid, constructionSucceeds]

/-- C1 amended: grid construction fails only for negative `rows` or
`cols` (numpy's array allocation), every other parameter combination —
including `rows = 0`, `cols = 0`, `cell_size ≤ 0` and `dt ≤ 0` — is
silently accepted, with the values stored unchanged (not clamped). -/
theorem construction_validation (rows cols : Int) (cs dtv : ℝ) (g0 : FireGrid) :
    (rows < 0 ∨ cols < 0 →
      mkFireGrid rows cols cs = Except.error "negative dimensions are not allowed") ∧
    (0 ≤ rows → 0 ≤ cols →
      mkFireGrid rows cols cs = Except.ok
        { rows := rows, cols := cols, cell_size := cs,
          grid_state := fun _ _ => CellState.UNBURNED,
          burn_progress := fun _ _ => 0, ignition_progress := fun _ _ => 0,
          flammability := fun _ _ => 1, landcover := none }) ∧
    (mkFireSimulation g0 dtv 0 0 0 0).dt = dtv ∧
    (mkFireSimulation g0 dtv 0 0 0 0).grid = g0 := by
  refine ⟨fun h => ?_, fun h1 h2 => ?_, rfl, rfl⟩
  · unfold mkFireGrid
    rw [if_pos h]
  · unfold mkFireGrid
    rw [if_neg (by omega : ¬(rows < 0 ∨ cols < 0))]

theorem construction_validation_witness :
    ((-1 : Int) < 0 ∨ (2 : Int) < 0) ∧
    mkFireGrid (-1) 2 1 = Except.error "negative dimensions are not allowed" :=
  ⟨Or.inl (by norm_num),
   (construction_validation (-1) 2 1 0 gUnit).1 (Or.inl (by norm_num))⟩

/-- C2: `fire_travel_time` computes exactly the formula the spec states:
infinite (`none`) for `flammability ≤ 0` with no division fault, and
`(distance / 0.2) × (1 / flammability) × wind_factor` otherwise, with
distance, reference direction, alignment and wind factor as specified. -/
theorem travel_time_matches_spec (cs f ws wd dx dy : ℝ) :
    fire_travel_time cs f ws wd dx dy = travel_time_spec cs f ws wd dx dy := by
  by_cases hf : f ≤ 0
  · rw [fire_travel_time_nonpos cs f ws wd dx dy hf]
    simp [travel_time_spec, hf]
  · by_cases hz : dx = 0 ∧ dy = 0
    · have hz' : ¬(dx ≠ 0 ∨ dy ≠ 0) := by push_neg; exact hz
      simp only [fire_travel_time, travel_time_spec, if_neg hz', if_pos hz, if_neg hf]
    · have hz' : dx ≠ 0 ∨ dy ≠ 0 := by
        rcases not_and_or.mp hz with h | h
        exacts [Or.inl h, Or.inr h]
      simp only [fire_travel_time, travel_time_spec, if_pos hz', if_neg hz, if_neg hf]
      rw [mul_comm (Real.sqrt (dx ^ 2 + dy ^ 2)) cs]

/-- C7: `ignite(i, j)` on an in-bounds cell unconditionally sets it
Burning with both progress fields reset to 0 and touches no other cell;
out of bounds it is a silent no-op on the whole grid. -/
theorem ignite_contract (g : FireGrid) (i j : Int) :
    (g.inB i j →
      (g.ignite i j).grid_state i j = CellState.BURNING ∧
      (g.ignite i j).burn_progress i j = 0 ∧
      (g.ignite i j).ignition_progress i j = 0 ∧
      ∀ a b : Int, ¬(a = i ∧ b = j) →
        (g.ignite i j).grid_state a b = g.grid_state a b ∧
        (g.ignite i j).burn_progress a b = g.burn_progress a b ∧
        (g.ignite i j).ignition_progress a b = g.ignition_progress a b) ∧
    (¬ g.inB i j → g.ignite i j = g) := by
  constructor
  · intro h
    refine ⟨by simp [FireGrid.ignite, h], by simp [FireGrid.ignite, h],
      by simp [FireGrid.ignite, h], fun a b hab => ?_⟩
    refine ⟨?_, ?_, ?_⟩ <;> simp [FireGrid.ignite, h, hab]
  · intro h
    simp [FireGrid.ignite, h]

theorem ignite_contract_witness :
    gUnit.inB 0 0 ∧ (gUnit.ignite 0 0).grid_state 0 0 = CellState.BURNING ∧
    ¬ gUnit.inB 5 0 ∧ gUnit.ignite 5 0 = gUnit := by
  have h1 : gUnit.inB 0 0 := by norm_num [FireGrid.inB, gUnit]
  have h2 : ¬ gUnit.inB 5 0 := by norm_num [FireGrid.inB, gUnit]
  exact ⟨h1, ((ignite_contract gUnit 0 0).1 h1).1, h2, (ignite_contract gUnit 5 0).2 h2⟩

/-- C8: with positive wind, travel toward a neighbor is strictly faster
when the wind points exactly along the spread direction than when it
points exactly against it. -/
theorem wind_alignment_extremes (cs f ws dx dy : ℝ) (hcs : 0 < cs) (hf : 0 < f)
    (hws : 0 < ws) (hdxy : dx ≠ 0 ∨ dy ≠ 0) :
    ∃ t1 t2 : ℝ,
      fire_travel_time cs f ws (atan2 dy dx) dx dy = some t1 ∧
      fire_travel_time cs f ws (atan2 dy dx + Real.pi) dx dy = some t2 ∧
      t1 < t2 := by
  have hfn : ¬ f ≤ 0 := not_le.mpr hf
  have hd2 : 0 < dx ^ 2 + dy ^ 2 := by
    rcases hdxy with h | h
    · have h1 : 0 < dx ^ 2 := by positivity
      have h2 : 0 ≤ dy ^ 2 := sq_nonneg dy
      linarith
    · have h1 : 0 < dy ^ 2 := by positivity
      have h2 : 0 ≤ dx ^ 2 := sq_nonneg dx
      linarith
  have hdist : 0 < Real.sqrt (dx ^ 2 + dy ^ 2) * cs :=
    mul_pos (Real.sqrt_pos.mpr hd2) hcs
  have halign1 : ((1 + Real.cos (atan2 dy dx - atan2 dy dx)) / 2) ^ (1.5 : ℝ) = 1 := by
    rw [sub_self, Real.cos_zero, show ((1 + (1 : ℝ)) / 2) = 1 by norm_num, Real.one_rpow]
  have halign2 : ((1 + Real.cos (atan2 dy dx - (atan2 dy dx + Real.pi))) / 2) ^ (1.5 : ℝ) = 0 := by
    rw [show atan2 dy dx - (atan2 dy dx + Real.pi) = -Real.pi by ring, Real.cos_neg,
      Real.cos_pi, show ((1 + (-1 : ℝ)) / 2) = 0 by norm_num]
    exact Real.zero_rpow (by norm_num)
  have e1 : fire_travel_time cs f ws (atan2 dy dx) dx dy =
      some (Real.sqrt (dx ^ 2 + dy ^ 2) * cs / 0.2 * (1 / f) * (1 / (1 + ws * 1))) := by
    simp only [fire_travel_time, if_pos hdxy, if_neg hfn, halign1]
  have e2 : fire_travel_time cs f ws (atan2 dy dx + Real.pi) dx dy =
      some (Real.sqrt (dx ^ 2 + dy ^ 2) * cs / 0.2 * (1 / f) * (1 / (1 + ws * 0))) := by
    simp only [fire_travel_time, if_pos hdxy, if_neg hfn, halign2]
  refine ⟨_, _, e1, e2, ?_⟩
  have hbase : 0 < Real.sqrt (dx ^ 2 + dy ^ 2) * cs / 0.2 * (1 / f) :=
    mul_pos (div_pos hdist (by norm_num)) (one_div_pos.mpr hf)
  have hlt : 1 / (1 + ws * 1) < 1 / (1 + ws * 0) := by
    rw [mul_one, mul_zero, add_zero, div_one, div_lt_one (by linarith)]
    linarith
  exact mul_lt_mul_of_pos_left hlt hbase

theorem wind_alignment_extremes_witness :
    (0 : ℝ) < 1 ∧ ((1 : ℝ) ≠ 0 ∨ (0 : ℝ) ≠ 0) ∧
    ∃ t1 t2 : ℝ,
      fire_travel_time 1 1 1 (atan2 0 1) 1 0 = some t1 ∧
      fire_travel_time 1 1 1 (atan2 0 1 + Real.pi) 1 0 = some t2 ∧
      t1 < t2 :=
  ⟨by norm_num, Or.inl (by norm_num),
   wind_alignment_extremes 1 1 1 1 0 (by norm_num) (by norm_num) (by norm_num)
     (Or.inl (by norm_num))⟩

/-- One `update_fire` call can neither change the state nor the ignition
progress of a zero-flammability Unburned cell (its rate is `dt / inf = 0`
and its ignition probability is 0). -/
theorem update_flam_zero_point (g : FireGrid) (dt ws wd : ℝ)
    (rnd : Neighbor → Int → Int → ℝ) (i j : Int)
    (hf : g.flammability i j = 0) (hs : g.grid_state i j = CellState.UNBURNED)
    (hr : ∀ nb, 0 ≤ rnd nb i j) :
    (update_fire g dt ws wd rnd).grid_state i j = CellState.UNBURNED ∧
    (update_fire g dt ws wd rnd).ignition_progress i j = g.ignition_progress i j := by
  have hnb : g.grid_state i j ≠ CellState.BURNING := by rw [hs]; simp
  have hA := passA_point_not_burning g dt ws i j hnb
  have hfA : (passA g dt ws).flammability i j = 0 := hf
  have hB := passB_point_flam_zero (passA g dt ws) dt ws wd rnd i j hfA hr
  rw [update_fire_gs, update_fire_ip]
  exact ⟨hB.1.trans (hA.1.trans hs), hB.2.2⟩

/-- C4: a zero-flammability Unburned cell stays Unburned, with its
ignition progress unchanged, under any finite sequence of `step()` calls,
whatever wind samples are drawn and whatever uniform draws (from [0, 1))
the ignition trials consume. -/
theorem flam_zero_never_ignites (s : FireSimulation) (ds : List StepDraws) (i j : Int)
    (hf : s.grid.flammability i j = 0) (hs : s.grid.grid_state i j = CellState.UNBURNED)
    (hr : ∀ d ∈ ds, ∀ nb, 0 ≤ d.rnd nb i j) :
    (s.runSteps ds).grid.grid_state i j = CellState.UNBURNED ∧
    (s.runSteps ds).grid.ignition_progress i j = s.grid.ignition_progress i j := by
  induction ds generalizing s with
  | nil => exact ⟨hs, rfl⟩
  | cons d ds ih =>
    have hstep := update_flam_zero_point s.grid s.dt (max 0 d.speed) d.dir d.rnd i j hf hs
      (fun nb => hr d (List.mem_cons_self d ds) nb)
    obtain ⟨h1, h2⟩ := ih (s.step d) hf hstep.1 (fun d' hd' => hr d' (List.mem_cons_of_mem d hd'))
    exact ⟨h1, h2.trans hstep.2⟩

theorem flam_zero_never_ignites_witness :
    gC4w.flammability 0 0 = 0 ∧ gC4w.grid_state 0 0 = CellState.UNBURNED ∧
    ((mkFireSimulation gC4w 1 0 0 0 0).runSteps [⟨0, 0, rnd0⟩]).grid.grid_state 0 0 =
      CellState.UNBURNED ∧
    ((mkFireSimulation gC4w 1 0 0 0 0).runSteps [⟨0, 0, rnd0⟩]).grid.ignition_progress 0 0 =
      (mkFireSimulation gC4w 1 0 0 0 0).grid.ignition_progress 0 0 := by
  have hr : ∀ d ∈ [(⟨0, 0, rnd0⟩ : StepDraws)], ∀ nb, 0 ≤ d.rnd nb 0 0 := by
    intro d hd nb
    rw [List.mem_singleton] at hd
    subst hd
    exact le_refl 0
  obtain ⟨h1, h2⟩ :=
    flam_zero_never_ignites (mkFireSimulation gC4w 1 0 0 0 0) [⟨0, 0, rnd0⟩] 0 0 rfl rfl hr
  exact ⟨rfl, rfl, h1, h2⟩

/-- One `update_fire` call only moves a cell's state forward along
Unburned → Burning → Burned. -/
theorem update_rank_mono_point (g : FireGrid) (dt ws wd : ℝ)
    (rnd : Neighbor → Int → Int → ℝ) (i j : Int) :
    stateRank (g.grid_state i j) ≤ stateRank ((update_fire g dt ws wd rnd).grid_state i j) := by
  rw [update_fire_gs]
  cases hgs : g.grid_state i j with
  | UNBURNED => exact Nat.zero_le _
  | BURNING =>
    have hdis : (passA g dt ws).grid_state i j = CellState.BURNING ∨
        (passA g dt ws).grid_state i j = CellState.BURNED := by
      simp only [passA]
      by_cases hin : g.inB i j ∧ g.grid_state i j = CellState.BURNING
      · rw [if_pos hin]
        split
        · exact Or.inr rfl
        · exact Or.inl rfl
      · rw [if_neg hin]
        exact Or.inl hgs
    have hA : (passA g dt ws).grid_state i j ≠ CellState.UNBURNED := by
      rcases hdis with h | h <;> rw [h] <;> simp
    rw [(passB_point_not_unburned (passA g dt ws) dt ws wd rnd i j hA).1]
    rcases hdis with h | h
    · rw [h]
    · rw [h]
      simp [stateRank]
  | BURNED =>
    have hA := passA_point_not_burning g dt ws i j (by rw [hgs]; simp)
    have hAgs : (passA g dt ws).grid_state i j = CellState.BURNED := hA.1.trans hgs
    have hne : (passA g dt ws).grid_state i j ≠ CellState.UNBURNED := by rw [hAgs]; simp
    rw [(passB_point_not_unburned (passA g dt ws) dt ws wd rnd i j hne).1, hAgs]

/-- One `update_fire` call leaves a Burned cell entirely untouched:
state, burn progress and ignition progress. -/
theorem update_burned_frozen_point (g : FireGrid) (dt ws wd : ℝ)
    (rnd : Neighbor → Int → Int → ℝ) (i j : Int)
    (h : g.grid_state i j = CellState.BURNED) :
    (update_fire g dt ws wd rnd).grid_state i j = CellState.BURNED ∧
    (update_fire g dt ws wd rnd).burn_progress i j = g.burn_progress i j ∧
    (update_fire g dt ws wd rnd).ignition_progress i j = g.ignition_progress i j := by
  have hA := passA_point_not_burning g dt ws i j (by rw [h]; simp)
  have hAgs : (passA g dt ws).grid_state i j = CellState.BURNED := hA.1.trans h
  have hne : (passA g dt ws).grid_state i j ≠ CellState.UNBURNED := by rw [hAgs]; simp
  have hB := passB_point_not_unburned (passA g dt ws) dt ws wd rnd i j hne
  rw [update_fire_gs, update_fire_bp, update_fire_ip]
  exact ⟨hB.1.trans hAgs, hB.2.1.trans hA.2, hB.2.2⟩

theorem rank_mono_run (ds : List StepDraws) (s : FireSimulation) (i j : Int) :
    stateRank (s.grid.grid_state i j) ≤ stateRank ((s.runSteps ds).grid.grid_state i j) := by
  induction ds generalizing s with
  | nil => exact le_refl _
  | cons d ds ih =>
    exact le_trans
      (update_rank_mono_point s.grid s.dt (max 0 d.speed) d.dir d.rnd i j)
      (ih (s.step d))

theorem burned_frozen_run (ds : List StepDraws) (s : FireSimulation) (i j : Int)
    (h : s.grid.grid_state i j = CellState.BURNED) :
    (s.runSteps ds).grid.grid_state i j = CellState.BURNED ∧
    (s.runSteps ds).grid.burn_progress i j = s.grid.burn_progress i j ∧
    (s.runSteps ds).grid.ignition_progress i j = s.grid.ignition_progress i j := by
  induction ds generalizing s with
  | nil => exact ⟨h, rfl, rfl⟩
  | cons d ds ih =>
    have hstep := update_burned_frozen_point s.grid s.dt (max 0 d.speed) d.dir d.rnd i j h
    obtain ⟨h1, h2, h3⟩ := ih (s.step d) hstep.1
    exact ⟨h1, h2.trans hstep.2.1, h3.trans hstep.2.2⟩

theorem runSteps_append (s : FireSimulation) (ds1 ds2 : List StepDraws) :
    s.runSteps (ds1 ++ ds2) = (s.runSteps ds1).runSteps ds2 := by
  unfold FireSimulation.runSteps
  exact List.foldl_append _ _ _ _

/-- C5: under `step()`/`advance` a cell's state only ever moves forward
along Unburned → Burning → Burned (the rank after any further steps is at
least the rank reached so far), and once a cell is Burned no later step
changes its state or either of its progress values. -/
theorem state_forward_only (s : FireSimulation) (ds1 ds2 : List StepDraws) (i j : Int) :
    stateRank ((s.runSteps ds1).grid.grid_state i j) ≤
      stateRank ((s.runSteps (ds1 ++ ds2)).grid.grid_state i j) ∧
    (s.grid.grid_state i j = CellState.BURNED →
      (s.runSteps (ds1 ++ ds2)).grid.grid_state i j = CellState.BURNED ∧
      (s.runSteps (ds1 ++ ds2)).grid.burn_progress i j = s.grid.burn_progress i j ∧
      (s.runSteps (ds1 ++ ds2)).grid.ignition_progress i j = s.grid.ignition_progress i j) := by
  constructor
  · rw [runSteps_append]
    exact rank_mono_run ds2 (s.runSteps ds1) i j
  · intro h
    exact burned_frozen_run (ds1 ++ ds2) s i j h

theorem state_forward_only_witness :
    (mkFireSimulation gC5w 1 0 0 0 0).grid.grid_state 0 0 = CellState.BURNED ∧
    ((mkFireSimulation gC5w 1 0 0 0 0).runSteps ([] ++ [⟨0, 0, rnd0⟩])).grid.grid_state 0 0 =
      CellState.BURNED ∧
    ((mkFireSimulation gC5w 1 0 0 0 0).runSteps ([] ++ [⟨0, 0, rnd0⟩])).grid.ignition_progress 0 0 =
      (mkFireSimulation gC5w 1 0 0 0 0).grid.ignition_progress 0 0 := by
  obtain ⟨h1, h2, h3⟩ :=
    (state_forward_only (mkFireSimulation gC5w 1 0 0 0 0) [] [⟨0, 0, rnd0⟩] 0 0).2 rfl
  exact ⟨rfl, h1, h3⟩

/-- Pointwise evaluation of Pass A at an in-bounds Burning cell. -/
theorem passA_eval_burning (g : FireGrid) (dt ws : ℝ) (i j : Int) (v r : ℝ)
    (hin : g.inB i j) (hgs : g.grid_state i j = CellState.BURNING)
    (hbp : g.burn_progress i j = v)
    (hrate : rateOf dt (burn_duration g.cell_size (g.flammability i j) ws) = r) :
    ((passA g dt ws).grid_state i j =
      if 1 ≤ v + r then CellState.BURNED else CellState.BURNING) ∧
    (passA g dt ws).burn_progress i j = v + r := by
  constructor
  · simp only [passA]
    rw [if_pos ⟨hin, hgs⟩, hbp, hrate]
  · simp only [passA]
    rw [if_pos ⟨hin, hgs⟩, hbp, hrate]

/-- C3: the burn-out pass at the failing input.  A 1×1 grid with its cell
Burning at progress 0.9 (flammability 1, cell size 1), advanced with
`dt = 7.5` at zero wind (`dt / T_burn = 7.5 / 25 = 0.3`): the cell does
transition to Burned, but its stored burn progress is the unclamped
1.2 — the clamp to 1.0 written on line 40 of fire_model.py is overwritten
by the full unclamped write-back on line 42. -/
theorem burnout_overshoot :
    (update_fire gC3 7.5 0 0 rnd0).grid_state 0 0 = CellState.BURNED ∧
    (update_fire gC3 7.5 0 0 rnd0).burn_progress 0 0 = 1.2 ∧
    (1.2 : ℝ) ≠ 1 := by
  have hin : gC3.inB 0 0 := by norm_num [FireGrid.inB, gC3, gUnit]
  have hcond : gC3.inB 0 0 ∧ gC3.grid_state 0 0 = CellState.BURNING := ⟨hin, rfl⟩
  have hbp : gC3.burn_progress 0 0 = 0.9 := rfl
  have hrate : rateOf 7.5 (burn_duration gC3.cell_size (gC3.flammability 0 0) 0) = 0.3 := by
    show rateOf 7.5 (burn_duration 1 1 0) = 0.3
    rw [burn_duration_unit]
    norm_num [rateOf]
  have hA_gs : (passA gC3 7.5 0).grid_state 0 0 = CellState.BURNED := by
    simp only [passA]
    rw [if_pos hcond, hbp, hrate, if_pos (by norm_num : (1 : ℝ) ≤ 0.9 + 0.3)]
  have hA_bp : (passA gC3 7.5 0).burn_progress 0 0 = 1.2 := by
    simp only [passA]
    rw [if_pos hcond, hbp, hrate]
    norm_num
  have hne : (passA gC3 7.5 0).grid_state 0 0 ≠ CellState.UNBURNED := by rw [hA_gs]; simp
  have hB := passB_point_not_unburned (passA gC3 7.5 0) 7.5 0 0 rnd0 0 0 hne
  rw [update_fire_gs, update_fire_bp]
  exact ⟨hB.1.trans hA_gs, hB.2.1.trans hA_bp, by norm_num⟩

/-- C6 counterexample: a grid fresh from the constructor has no ingested
raster (`landcover = none`) yet `update_fire` raises no precondition
failure — it happily advances the ignited cell's burn progress by
`dt / (5 × (cell_size / 0.2) / 1.0) = 5 / 25 = 0.2`, computed from the
default flammability 1.0. -/
theorem advance_without_ingestion :
    mkFireGrid 1 1 1 = Except.ok gUnit ∧
    gUnit.landcover = none ∧
    (update_fire (gUnit.ignite 0 0) 5 0 0 rnd0).grid_state 0 0 = CellState.BURNING ∧
    (update_fire (gUnit.ignite 0 0) 5 0 0 rnd0).burn_progress 0 0 = 0.2 := by
  have hgin : gUnit.inB 0 0 := by norm_num [FireGrid.inB, gUnit]
  have hg6 : gUnit.ignite 0 0 = { gUnit with
      grid_state := fun a b => if a = 0 ∧ b = 0 then CellState.BURNING else gUnit.grid_state a b
      burn_progress := fun a b => if a = 0 ∧ b = 0 then 0 else gUnit.burn_progress a b
      ignition_progress := fun a b =>
        if a = 0 ∧ b = 0 then 0 else gUnit.ignition_progress a b } := by
    unfold FireGrid.ignite
    rw [if_pos hgin]
  refine ⟨?_, rfl, ?_⟩
  · unfold mkFireGrid
    rw [if_neg (by norm_num)]
    rfl
  · rw [hg6]
    set R : FireGrid := { gUnit with
      grid_state := fun a b => if a = 0 ∧ b = 0 then CellState.BURNING else gUnit.grid_state a b
      burn_progress := fun a b => if a = 0 ∧ b = 0 then 0 else gUnit.burn_progress a b
      ignition_progress := fun a b =>
        if a = 0 ∧ b = 0 then 0 else gUnit.ignition_progress a b } with hR
    have hin2 : R.inB 0 0 := by norm_num [hR, FireGrid.inB, gUnit]
    have hgs2 : R.grid_state 0 0 = CellState.BURNING := by norm_num [hR]
    have hbp2 : R.burn_progress 0 0 = 0 := by norm_num [hR]
    have hrate : rateOf 5 (burn_duration R.cell_size (R.flammability 0 0) 0) = 0.2 := by
      show rateOf 5 (burn_duration 1 1 0) = 0.2
      rw [burn_duration_unit]
      norm_num [rateOf]
    obtain ⟨hA_gs0, hA_bp0⟩ := passA_eval_burning R 5 0 0 0 0 0.2 hin2 hgs2 hbp2 hrate
    have hA_gs : (passA R 5 0).grid_state 0 0 = CellState.BURNING :=
      hA_gs0.trans (if_neg (by norm_num : ¬(1 : ℝ) ≤ 0 + 0.2))
    have hA_bp : (passA R 5 0).burn_progress 0 0 = 0.2 := by
      rw [hA_bp0]
      norm_num
    have hne : (passA R 5 0).grid_state 0 0 ≠ CellState.UNBURNED := by rw [hA_gs]; simp
    have hB := passB_point_not_unburned (passA R 5 0) 5 0 0 rnd0 0 0 hne
    rw [update_fire_gs, update_fire_bp]
    exact ⟨hB.1.trans hA_gs, hB.2.1.trans hA_bp⟩

/-- C6 amended: the "Load landcover first." precondition failure guards
`map_flammability` (the ingestion step itself), fatal to that call only;
`update_fire` performs no ingestion check and uses the stored
flammability array unchanged. -/
theorem flamm_loading_check (g : FireGrid) (m : List (Int × ℝ)) (dt ws wd : ℝ)
    (rnd : Neighbor → Int → Int → ℝ) :
    (g.landcover = none → g.map_flammability m = Except.error "Load landcover first.") ∧
    (∀ lc, g.landcover = some lc →
      g.map_flammability m =
        Except.ok { g with flammability := fun i j => mapFlamValue m (lc i j) }) ∧
    (update_fire g dt ws wd rnd).flammability = g.flammability := by
  refine ⟨fun h => ?_, fun lc h => ?_, rfl⟩
  · unfold FireGrid.map_flammability
    rw [h]
  · unfold FireGrid.map_flammability
    rw [h]

theorem flamm_loading_check_witness :
    gUnit.landcover = none ∧
    gUnit.map_flammability [] = Except.error "Load landcover first." :=
  ⟨rfl, (flamm_loading_check gUnit [] 0 0 0 rnd0).1 rfl⟩

theorem gC9A_rows : gC9A.rows = 1 := rfl

theorem gC9A_cols : gC9A.cols = 3 := rfl

theorem gC9_gs_00 : gC9.grid_state 0 0 = CellState.BURNING := by norm_num [gC9]

theorem gC9_gs_01 : gC9.grid_state 0 1 = CellState.UNBURNED := by norm_num [gC9]

theorem gC9_gs_02 : gC9.grid_state 0 2 = CellState.BURNING := by norm_num [gC9]

theorem gC9_in00 : gC9.inB 0 0 := by norm_num [FireGrid.inB, gC9]

theorem gC9_in02 : gC9.inB 0 2 := by norm_num [FireGrid.inB, gC9]

theorem gC9_burnrate (i j : Int) :
    rateOf 10 (burn_duration gC9.cell_size (gC9.flammability i j) 0) = 0.4 := by
  show rateOf 10 (burn_duration 1 1 0) = 0.4
  rw [burn_duration_unit]
  norm_num [rateOf]

theorem gC9A_gs_00 : gC9A.grid_state 0 0 = CellState.BURNING := by
  have h := passA_eval_burning gC9 10 0 0 0 0 0.4 gC9_in00 gC9_gs_00 rfl (gC9_burnrate 0 0)
  exact h.1.trans (if_neg (by norm_num : ¬(1 : ℝ) ≤ 0 + 0.4))

theorem gC9A_gs_02 : gC9A.grid_state 0 2 = CellState.BURNING := by
  have h := passA_eval_burning gC9 10 0 0 2 0 0.4 gC9_in02 gC9_gs_02 rfl (gC9_burnrate 0 2)
  exact h.1.trans (if_neg (by norm_num : ¬(1 : ℝ) ≤ 0 + 0.4))

theorem gC9A_gs_01 : gC9A.grid_state 0 1 = CellState.UNBURNED := by
  exact (passA_point_not_burning gC9 10 0 0 1 (by rw [gC9_gs_01]; simp)).1.trans gC9_gs_01

theorem gC9A_bp_01 : gC9A.burn_progress 0 1 = 0 :=
  (passA_point_not_burning gC9 10 0 0 1 (by rw [gC9_gs_01]; simp)).2

theorem gC9A_in01 : gC9A.inB 0 1 := by
  norm_num [FireGrid.inB, gC9A_rows, gC9A_cols]

/-- In the 1×3 grid every vertical offset has its source row out of
bounds, so cell (0,1) is not a candidate for any of the six offsets with
`si = ±1`. -/
theorem c9_nocand_v (nb : Neighbor) (h : nb.si = -1 ∨ nb.si = 1) :
    ¬ candidateB gC9A (burningMask gC9A) (unburnedMask gC9A) nb 0 1 := by
  rintro ⟨-, -, hin, -⟩
  simp only [FireGrid.inB, gC9A_rows, gC9A_cols] at hin
  rcases h with h | h <;> rw [h] at hin <;> omega

/-- Cell (0,1) is a candidate of the `(0,-1)` sub-pass: Unburned per the
snapshot, with the Burning cell (0,2) to its East. -/
theorem c9_cand_W :
    candidateB gC9A (burningMask gC9A) (unburnedMask gC9A) ⟨0, -1, -1, 0⟩ 0 1 := by
  refine ⟨gC9A_in01, gC9A_gs_01, ?_, ?_⟩
  · show gC9A.inB (0 - 0) (1 - -1)
    norm_num [FireGrid.inB, gC9A_rows, gC9A_cols]
  · show gC9A.grid_state (0 - 0) (1 - -1) = CellState.BURNING
    rw [show ((0 : ℤ) - 0) = 0 by norm_num, show ((1 : ℤ) - -1) = 2 by norm_num]
    exact gC9A_gs_02

/-- Cell (0,1) is a candidate of the `(0,+1)` sub-pass: Unburned per the
(stale) snapshot, with the Burning cell (0,0) to its West. -/
theorem c9_cand_E :
    candidateB gC9A (burningMask gC9A) (unburnedMask gC9A) nbE 0 1 := by
  refine ⟨gC9A_in01, gC9A_gs_01, ?_, ?_⟩
  · show gC9A.inB (0 - 0) (1 - 1)
    norm_num [FireGrid.inB, gC9A_rows, gC9A_cols]
  · show gC9A.grid_state (0 - 0) (1 - 1) = CellState.BURNING
    rw [show ((0 : ℤ) - 0) = 0 by norm_num, show ((1 : ℤ) - 1) = 0 by norm_num]
    exact gC9A_gs_00

theorem c9_rate_W : rateB gC9A 10 0 0 ⟨0, -1, -1, 0⟩ 0 1 = 2 := by
  show rateOf 10 (ignition_duration 1 1 0 0 (-1) 0) = 2
  unfold ignition_duration
  rw [ftt_unit_W]
  norm_num [rateOf]

theorem c9_rate_E : rateB gC9A 10 0 0 nbE 0 1 = 2 := by
  show rateOf 10 (ignition_duration 1 1 0 0 1 0) = 2
  unfold ignition_duration
  rw [ftt_unit_E]
  norm_num [rateOf]

theorem c9_prob : ignition_probability (gC9A.flammability 0 1) = 1 := by
  show ignition_probability 1 = 1
  simp [ignition_probability]

/-- Chain step: a non-candidate cell keeps its known values. -/
theorem chainB_skip (gA : FireGrid) (dt ws wd : ℝ) (b u : Int → Int → Prop)
    (r : Int → Int → ℝ) (nb : Neighbor) (s : BState) (i j : Int)
    (X : CellState) (Y Z : ℝ)
    (hc : ¬ candidateB gA b u nb i j)
    (hgs : s.gs i j = X) (hbp : s.bp i j = Y) (hip : s.ip i j = Z) :
    (passBstep gA dt ws wd b u r nb s).gs i j = X ∧
    (passBstep gA dt ws wd b u r nb s).bp i j = Y ∧
    (passBstep gA dt ws wd b u r nb s).ip i j = Z := by
  obtain ⟨e1, e2, e3⟩ := passBstep_point_skip gA dt ws wd b u r nb s i j hc
  exact ⟨e1.trans hgs, e2.trans hbp, e3.trans hip⟩

/-- Chain step: a candidate with known ignition progress that crosses the
threshold and wins the draw is ignited. -/
theorem chainB_fire (gA : FireGrid) (dt ws wd : ℝ) (b u : Int → Int → Prop)
    (r : Int → Int → ℝ) (nb : Neighbor) (s : BState) (i j : Int) (Z : ℝ)
    (hc : candidateB gA b u nb i j) (hip : s.ip i j = Z)
    (h1 : 1 ≤ Z + rateB gA dt ws wd nb i j)
    (h2 : r i j < ignition_probability (gA.flammability i j)) :
    (passBstep gA dt ws wd b u r nb s).gs i j = CellState.BURNING ∧
    (passBstep gA dt ws wd b u r nb s).bp i j = 0 ∧
    (passBstep gA dt ws wd b u r nb s).ip i j = 0 :=
  passBstep_point_fire gA dt ws wd b u r nb s i j hc (by rw [hip]; exact h1) h2

/-- Chain step: a candidate that loses the draw keeps state and burn
progress and accumulates the rate onto its known ignition progress. -/
theorem chainB_fail (gA : FireGrid) (dt ws wd : ℝ) (b u : Int → Int → Prop)
    (r : Int → Int → ℝ) (nb : Neighbor) (s : BState) (i j : Int)
    (X : CellState) (Y Z : ℝ)
    (hc : candidateB gA b u nb i j)
    (h2 : ¬ r i j < ignition_probability (gA.flammability i j))
    (hgs : s.gs i j = X) (hbp : s.bp i j = Y) (hip : s.ip i j = Z) :
    (passBstep gA dt ws wd b u r nb s).gs i j = X ∧
    (passBstep gA dt ws wd b u r nb s).bp i j = Y ∧
    (passBstep gA dt ws wd b u r nb s).ip i j = Z + rateB gA dt ws wd nb i j := by
  obtain ⟨e1, e2, e3⟩ := passBstep_point_fail gA dt ws wd b u r nb s i j hc h2
  exact ⟨e1.trans hgs, e2.trans hbp, by rw [e3, hip]⟩

/-- The first four sub-passes of `update_fire gC9 10 0 0 r`: the three
North offsets skip (source row out of bounds), then the `(0,-1)`
sub-pass ignites cell (0,1) from the Burning cell (0,2), resetting its
progress fields. -/
theorem c9_first4 (r : Neighbor → Int → Int → ℝ)
    (h3 : r ⟨0, -1, -1, 0⟩ 0 1 < 1) :
    (((NEIGHBORS.take 4).foldl
      (fun s nb => passBstep gC9A 10 0 0 (burningMask gC9A) (unburnedMask gC9A) (r nb) nb s)
      ⟨gC9A.grid_state, gC9A.burn_progress, gC9A.ignition_progress⟩).gs 0 1 =
        CellState.BURNING) ∧
    (((NEIGHBORS.take 4).foldl
      (fun s nb => passBstep gC9A 10 0 0 (burningMask gC9A) (unburnedMask gC9A) (r nb) nb s)
      ⟨gC9A.grid_state, gC9A.burn_progress, gC9A.ignition_progress⟩).bp 0 1 = 0) ∧
    (((NEIGHBORS.take 4).foldl
      (fun s nb => passBstep gC9A 10 0 0 (burningMask gC9A) (unburnedMask gC9A) (r nb) nb s)
      ⟨gC9A.grid_state, gC9A.burn_progress, gC9A.ignition_progress⟩).ip 0 1 = 0) := by
  have h0g : (⟨gC9A.grid_state, gC9A.burn_progress, gC9A.ignition_progress⟩ : BState).gs 0 1 =
      CellState.UNBURNED := gC9A_gs_01
  have h0b : (⟨gC9A.grid_state, gC9A.burn_progress, gC9A.ignition_progress⟩ : BState).bp 0 1 =
      0 := gC9A_bp_01
  have h0i : (⟨gC9A.grid_state, gC9A.burn_progress, gC9A.ignition_progress⟩ : BState).ip 0 1 =
      0 := rfl
  have c1 := chainB_skip gC9A 10 0 0 (burningMask gC9A) (unburnedMask gC9A)
    (r ⟨-1, -1, -1, 1⟩) ⟨-1, -1, -1, 1⟩ _ 0 1 _ _ _
    (c9_nocand_v ⟨-1, -1, -1, 1⟩ (Or.inl rfl)) h0g h0b h0i
  have c2 := chainB_skip gC9A 10 0 0 (burningMask gC9A) (unburnedMask gC9A)
    (r ⟨-1, 0, 0, 1⟩) ⟨-1, 0, 0, 1⟩ _ 0 1 _ _ _
    (c9_nocand_v ⟨-1, 0, 0, 1⟩ (Or.inl rfl)) c1.1 c1.2.1 c1.2.2
  have c3 := chainB_skip gC9A 10 0 0 (burningMask gC9A) (unburnedMask gC9A)
    (r ⟨-1, 1, 1, 1⟩) ⟨-1, 1, 1, 1⟩ _ 0 1 _ _ _
    (c9_nocand_v ⟨-1, 1, 1, 1⟩ (Or.inl rfl)) c2.1 c2.2.1 c2.2.2
  have c4 := chainB_fire gC9A 10 0 0 (burningMask gC9A) (unburnedMask gC9A)
    (r ⟨0, -1, -1, 0⟩) ⟨0, -1, -1, 0⟩ _ 0 1 _ c9_cand_W c3.2.2
    (by rw [c9_rate_W]; norm_num) (by rw [c9_prob]; exact h3)
  have ht : NEIGHBORS.take 4 =
      [⟨-1, -1, -1, 1⟩, ⟨-1, 0, 0, 1⟩, ⟨-1, 1, 1, 1⟩, ⟨0, -1, -1, 0⟩] := rfl
  rw [ht]
  simp only [List.foldl]
  exact ⟨c4.1, c4.2.1, c4.2.2⟩

/-- The whole `update_fire gC9 10 0 0 r` call: cell (0,1) ends Burning,
and its final ignition progress is 0 when the East sub-pass draw wins its
trial (the cell is re-ignited) and 2 when it loses (the already-Burning
cell's progress was advanced again by the stale-snapshot East sub-pass). -/
theorem c9_full (r : Neighbor → Int → Int → ℝ) (h3 : r ⟨0, -1, -1, 0⟩ 0 1 < 1) :
    (update_fire gC9 10 0 0 r).grid_state 0 1 = CellState.BURNING ∧
    (update_fire gC9 10 0 0 r).ignition_progress 0 1 = (if r nbE 0 1 < 1 then 0 else 2) := by
  have hm := c9_first4 r h3
  have hsplit : passB gC9A 10 0 0 r =
      (NEIGHBORS.drop 4).foldl
        (fun s nb => passBstep gC9A 10 0 0 (burningMask gC9A) (unburnedMask gC9A) (r nb) nb s)
        ((NEIGHBORS.take 4).foldl
          (fun s nb => passBstep gC9A 10 0 0 (burningMask gC9A) (unburnedMask gC9A) (r nb) nb s)
          ⟨gC9A.grid_state, gC9A.burn_progress, gC9A.ignition_progress⟩) := by
    unfold passB
    conv_lhs => rw [← List.take_append_drop 4 NEIGHBORS]
    rw [List.foldl_append]
  have hd : NEIGHBORS.drop 4 = [nbE, ⟨1, -1, -1, -1⟩, ⟨1, 0, 0, -1⟩, ⟨1, 1, 1, -1⟩] := rfl
  by_cases hE : r nbE 0 1 < 1
  · have c5 := chainB_fire gC9A 10 0 0 (burningMask gC9A) (unburnedMask gC9A)
      (r nbE) nbE _ 0 1 _ c9_cand_E hm.2.2
      (by rw [c9_rate_E]; norm_num) (by rw [c9_prob]; exact hE)
    have c6 := chainB_skip gC9A 10 0 0 (burningMask gC9A) (unburnedMask gC9A)
      (r ⟨1, -1, -1, -1⟩) ⟨1, -1, -1, -1⟩ _ 0 1 _ _ _
      (c9_nocand_v ⟨1, -1, -1, -1⟩ (Or.inr rfl)) c5.1 c5.2.1 c5.2.2
    have c7 := chainB_skip gC9A 10 0 0 (burningMask gC9A) (unburnedMask gC9A)
      (r ⟨1, 0, 0, -1⟩) ⟨1, 0, 0, -1⟩ _ 0 1 _ _ _
      (c9_nocand_v ⟨1, 0, 0, -1⟩ (Or.inr rfl)) c6.1 c6.2.1 c6.2.2
    have c8 := chainB_skip gC9A 10 0 0 (burningMask gC9A) (unburnedMask gC9A)
      (r ⟨1, 1, 1, -1⟩) ⟨1, 1, 1, -1⟩ _ 0 1 _ _ _
      (c9_nocand_v ⟨1, 1, 1, -1⟩ (Or.inr rfl)) c7.1 c7.2.1 c7.2.2
    constructor
    · show (passB gC9A 10 0 0 r).gs 0 1 = CellState.BURNING
      rw [hsplit, hd]
      simp only [List.foldl]
      exact c8.1
    · show (passB gC9A 10 0 0 r).ip 0 1 = (if r nbE 0 1 < 1 then 0 else 2)
      rw [hsplit, hd, if_pos hE]
      simp only [List.foldl]
      exact c8.2.2
  · have c5 := chainB_fail gC9A 10 0 0 (burningMask gC9A) (unburnedMask gC9A)
      (r nbE) nbE _ 0 1 _ _ _ c9_cand_E (by rw [c9_prob]; exact hE) hm.1 hm.2.1 hm.2.2
    have c5i : (passBstep gC9A 10 0 0 (burningMask gC9A) (unburnedMask gC9A)
        (r nbE) nbE ((NEIGHBORS.take 4).foldl
          (fun s nb => passBstep gC9A 10 0 0 (burningMask gC9A) (unburnedMask gC9A) (r nb) nb s)
          ⟨gC9A.grid_state, gC9A.burn_progress, gC9A.ignition_progress⟩)).ip 0 1 = 2 := by
      rw [c5.2.2, c9_rate_E]
      norm_num
    have c6 := chainB_skip gC9A 10 0 0 (burningMask gC9A) (unburnedMask gC9A)
      (r ⟨1, -1, -1, -1⟩) ⟨1, -1, -1, -1⟩ _ 0 1 _ _ _
      (c9_nocand_v ⟨1, -1, -1, -1⟩ (Or.inr rfl)) c5.1 c5.2.1 c5i
    have c7 := chainB_skip gC9A 10 0 0 (burningMask gC9A) (unburnedMask gC9A)
      (r ⟨1, 0, 0, -1⟩) ⟨1, 0, 0, -1⟩ _ 0 1 _ _ _
      (c9_nocand_v ⟨1, 0, 0, -1⟩ (Or.inr rfl)) c6.1 c6.2.1 c6.2.2
    have c8 := chainB_skip gC9A 10 0 0 (burningMask gC9A) (unburnedMask gC9A)
      (r ⟨1, 1, 1, -1⟩) ⟨1, 1, 1, -1⟩ _ 0 1 _ _ _
      (c9_nocand_v ⟨1, 1, 1, -1⟩ (Or.inr rfl)) c7.1 c7.2.1 c7.2.2
    constructor
    · show (passB gC9A 10 0 0 r).gs 0 1 = CellState.BURNING
      rw [hsplit, hd]
      simp only [List.foldl]
      exact c8.1
    · show (passB gC9A 10 0 0 r).ip 0 1 = (if r nbE 0 1 < 1 then 0 else 2)
      rw [hsplit, hd, if_neg hE]
      simp only [List.foldl]
      exact c8.2.2

/-- C9: the Unburned snapshot of Pass B is taken once and not refreshed
between offsets.  In `gC9` (Burning at (0,0) and (0,2), Unburned middle),
after the first four sub-passes cell (0,1) is already Burning with its
progress reset, yet it is still a candidate of the later East sub-pass;
with a failing East draw (`rndA`) that sub-pass advances the ignited
cell's ignition progress again (final value 2), and with a succeeding
draw (`rnd0`) it re-ignites the cell (final progress reset to 0). -/
theorem stale_snapshot_retrigger :
    sC9mid.gs 0 1 = CellState.BURNING ∧
    sC9mid.ip 0 1 = 0 ∧
    candidateB gC9A (burningMask gC9A) (unburnedMask gC9A) nbE 0 1 ∧
    (update_fire gC9 10 0 0 rndA).grid_state 0 1 = CellState.BURNING ∧
    (update_fire gC9 10 0 0 rndA).ignition_progress 0 1 = 2 ∧
    (update_fire gC9 10 0 0 rnd0).grid_state 0 1 = CellState.BURNING ∧
    (update_fire gC9 10 0 0 rnd0).ignition_progress 0 1 = 0 := by
  have hrA3 : rndA ⟨0, -1, -1, 0⟩ 0 1 < 1 := by norm_num [rndA]
  have hr03 : rnd0 ⟨0, -1, -1, 0⟩ 0 1 < 1 := by norm_num [rnd0]
  have hmA := c9_first4 rndA hrA3
  have hfA := c9_full rndA hrA3
  have hf0 := c9_full rnd0 hr03
  have hAE : rndA nbE 0 1 = 1 := by norm_num [rndA, nbE]
  have h0E : rnd0 nbE 0 1 = 0 := rfl
  refine ⟨hmA.1, hmA.2.2, c9_cand_E, hfA.1, ?_, hf0.1, ?_⟩
  · rw [hfA.2, if_neg (by rw [hAE]; norm_num)]
  · rw [hf0.2, if_pos (by rw [h0E]; norm_num)]

/-- C10: the wrap-around entries of the cyclic shift are masked off, so a
cell none of whose true in-bounds neighbors is burning is in no
sub-pass's candidate set, its ignition progress is untouched by the whole
call, and its state can change only through the burn-out pass. -/
theorem no_wraparound (g : FireGrid) (dt ws wd : ℝ) (rnd : Neighbor → Int → Int → ℝ)
    (i j : Int)
    (h : ∀ nb ∈ NEIGHBORS, ¬ ((passA g dt ws).inB (i - nb.si) (j - nb.sj) ∧
        burningMask (passA g dt ws) (i - nb.si) (j - nb.sj))) :
    (∀ nb ∈ NEIGHBORS, ¬ candidateB (passA g dt ws) (burningMask (passA g dt ws))
        (unburnedMask (passA g dt ws)) nb i j) ∧
    (update_fire g dt ws wd rnd).ignition_progress i j = g.ignition_progress i j ∧
    (update_fire g dt ws wd rnd).grid_state i j = (passA g dt ws).grid_state i j := by
  have hnc : ∀ nb ∈ NEIGHBORS, ¬ candidateB (passA g dt ws) (burningMask (passA g dt ws))
      (unburnedMask (passA g dt ws)) nb i j :=
    fun nb hnb hc => h nb hnb ⟨hc.2.2.1, hc.2.2.2⟩
  have hB := passB_point_of_no_candidate (passA g dt ws) dt ws wd rnd i j hnc
  refine ⟨hnc, ?_, ?_⟩
  · rw [update_fire_ip]
    exact hB.2.2
  · rw [update_fire_gs]
    exact hB.1

/-- Witness for C10 on the 1×3 grid `gC9`: the cell (0,2) on the East
boundary is Burning, yet the opposite-boundary cell (0,0) — which the
cyclic shift would have made its neighbor — has no burning neighbor, is
in no candidate set, and its ignition progress stays 0. -/
theorem no_wraparound_witness :
    burningMask gC9A 0 2 ∧
    (∀ nb ∈ NEIGHBORS, ¬ (gC9A.inB (0 - nb.si) (0 - nb.sj) ∧
        burningMask gC9A (0 - nb.si) (0 - nb.sj))) ∧
    (update_fire gC9 10 0 0 rnd0).ignition_progress 0 0 = 0 := by
  have hh : ∀ nb ∈ NEIGHBORS, ¬ (gC9A.inB (0 - nb.si) (0 - nb.sj) ∧
      burningMask gC9A (0 - nb.si) (0 - nb.sj)) := by
    intro nb hnb
    simp only [NEIGHBORS] at hnb
    fin_cases hnb <;> rintro ⟨hin, hb⟩ <;>
      simp only [burningMask, FireGrid.inB, gC9A_rows, gC9A_cols] at hin hb
    all_goals first
      | omega
      | (norm_num at hb; rw [gC9A_gs_01] at hb; exact absurd hb (by simp))
  obtain ⟨-, hip, -⟩ := no_wraparound gC9 10 0 0 rnd0 0 0 hh
  exact ⟨gC9A_gs_02, hh, hip⟩
